import Mathlib

/-!
Shallow embedding of `newIDE/app/src/InstancesEditor/InstancesRenderer.js`
(the `InstancesRenderer` class) and proofs of the specification's properties
about it.

Modelling choices, each justified by the source:
* `layersRenderers` is a JS object used as a string-keyed map; `for...in`
  enumerates its own string keys in insertion order, so it is embedded as an
  insertion-ordered association list.  Looking a key up, inserting a fresh
  key (appended), updating a value in place and deleting a key are the only
  operations the class performs on it.
* A `LayerRenderer` object is opaque to `InstancesRenderer` except for the
  fields/methods the class touches: its identity (`id`, a fresh natural
  number per constructed renderer, which also identifies the pixi container
  it owns, `getPixiContainer()`), the mutable `layer` back-reference
  (line 146), the `wasUsed` liveness flag (line 147) and the `zOrder`
  expando set on its pixi container (line 148).
* `pixiContainer.children` is the root container's ordered child list,
  embedded as the list of the child renderers' ids.  `addChild` appends,
  `removeChild` removes the (single) occurrence, and
  `children.sort(comparator)` is a stable sort (ES2019
  `Array.prototype.sort`) by the comparator `a.zOrder - b.zOrder` after the
  `x.zOrder = x.zOrder || 0` coercion; a missing `zOrder` reads as `0`.
* Calls into collaborators that do not feed back into the class's own state
  (`layerRenderer.render()`, `layerRenderer.delete()`,
  `layerRenderer.resetInstanceRenderersFor(name)`,
  `pixiContainer.destroy()`) are recorded as events so that "invoked exactly
  once" style properties can be stated: `deleteEvents` is the ordered log of
  renderer ids whose `delete()` was invoked, `resetEvents` the log of
  forwarded `resetInstanceRenderersFor` calls, `containerDestroyed` the
  number of `pixiContainer.destroy()` calls.
* The geometry queries a `LayerRenderer` answers
  (`getInstanceLeft/Top/Width/Height`) are external behaviour, modelled by
  an oracle indexed by the renderer's id.
-/

/-- A layout layer as consumed by `render` via `layout.getLayerAt(i)`:
`name` is `layer.getName()`; `objId` models the identity of the underlying
layer object, which may be replaced by a different object bearing the same
name between passes (see the comment at source lines 142-145). -/
structure Layer where
  name : String
  objId : Nat
deriving DecidableEq, Repr

/-- The state of one `LayerRenderer` entry as seen by `InstancesRenderer`:
`id` is the renderer's object identity (also identifying its pixi container,
the drawable stored in the root container's children), `layer` the mutable
back-reference assigned at source line 146, `wasUsed` the liveness flag
(line 147), `zOrder` the z index set on its pixi container (line 148). -/
structure LayerRenderer where
  id : Nat
  layer : Layer
  wasUsed : Bool
  zOrder : Nat
deriving DecidableEq, Repr

/-- The state of an `InstancesRenderer`: the insertion-ordered
`layersRenderers` map, the root `pixiContainer`'s ordered children (by
renderer id), the fresh-id source for newly constructed renderers, and the
event logs for external effects (renderer `delete()` calls, forwarded
`resetInstanceRenderersFor` calls, root container `destroy()` calls). -/
structure InstancesRenderer where
  layersRenderers : List (String × LayerRenderer)
  children : List Nat
  nextId : Nat
  deleteEvents : List Nat
  resetEvents : List (Nat × String)
  containerDestroyed : Nat
deriving DecidableEq, Repr

namespace InstancesRenderer

/-- The state right after the constructor: `this.layersRenderers = {}` and a
fresh empty `PIXI.Container` (source lines 62-64). -/
def initial : InstancesRenderer :=
  { layersRenderers := []
    children := []
    nextId := 0
    deleteEvents := []
    resetEvents := []
    containerDestroyed := 0 }

/-- Property lookup `this.layersRenderers[layerName]` (source lines 68, 123)
in the insertion-ordered map. -/
def lookupRenderer (s : InstancesRenderer) (layerName : String) :
    Option LayerRenderer :=
  (s.layersRenderers.find? (fun p => p.1 == layerName)).map Prod.snd

/-- One iteration of the `render()` loop body (source lines 119-149) for loop
index `i` and `layer = layout.getLayerAt(i)`: look the layer's name up; when
absent, construct a fresh `LayerRenderer`, store it under the name and
`addChild` its pixi container (lines 124-140); in both cases reassign
`layerRenderer.layer`, set `wasUsed = true` and `zOrder = i`
(lines 146-148).  (`layerRenderer.render()` itself only touches collaborator
state.) -/
def renderStep (s : InstancesRenderer) (i : Nat) (layer : Layer) :
    InstancesRenderer :=
  match s.lookupRenderer layer.name with
  | none =>
      let r : LayerRenderer :=
        { id := s.nextId, layer := layer, wasUsed := true, zOrder := i }
      { s with
        layersRenderers := s.layersRenderers ++ [(layer.name, r)]
        children := s.children ++ [s.nextId]
        nextId := s.nextId + 1 }
  | some _ =>
      { s with
        layersRenderers := s.layersRenderers.map (fun p =>
          if p.1 == layer.name then
            (p.1, { p.2 with layer := layer, wasUsed := true, zOrder := i })
          else p) }

/-- The `render()` loop (source lines 119-150), iterating over
`layout.getLayerAt(0) .. layout.getLayerAt(count - 1)` with `i` the current
loop index. -/
def renderLoop (s : InstancesRenderer) (i : Nat) :
    List Layer → InstancesRenderer
  | [] => s
  | layer :: rest => renderLoop (s.renderStep i layer) (i + 1) rest

/-- Reading `x.zOrder || 0` for the drawable of renderer id `cid` during the
sort comparator (source lines 158-160): the stored `zOrder` when the child
belongs to a renderer in the map, `0` when no such renderer exists (the
`|| 0` default for an unset expando). -/
def zOrderOf (m : List (String × LayerRenderer)) (cid : Nat) : Nat :=
  match m.find? (fun p => p.2.id == cid) with
  | some p => p.2.zOrder
  | none => 0

/-- Method `_updatePixiObjectsZOrder()` (source lines 156-162):
`this.pixiContainer.children.sort((a, b) => a.zOrder - b.zOrder)` — a stable
sort of the children by ascending `zOrder`. -/
def updatePixiObjectsZOrder (s : InstancesRenderer) : InstancesRenderer :=
  { s with
    children := s.children.mergeSort (fun a b =>
      decide (zOrderOf s.layersRenderers a ≤ zOrderOf s.layersRenderers b)) }

/-- The entries `_cleanUnusedLayerRenderers` finds with `!layerRenderer.wasUsed`
(source line 185): the ones it destroys. -/
def deadEntries (m : List (String × LayerRenderer)) :
    List (String × LayerRenderer) :=
  m.filter (fun p => !p.2.wasUsed)

/-- Method `_cleanUnusedLayerRenderers()` (source lines 181-192): for every entry
whose `wasUsed` flag is false, `removeChild` its pixi container, invoke its
`delete()` and delete the map entry; for every other entry reset `wasUsed`
to false. -/
def cleanUnusedLayerRenderers (s : InstancesRenderer) : InstancesRenderer :=
  { s with
    layersRenderers := s.layersRenderers.filterMap (fun p =>
      if p.2.wasUsed then some (p.1, { p.2 with wasUsed := false }) else none)
    children :=
      (deadEntries s.layersRenderers).foldl (fun cs p => cs.erase p.2.id)
        s.children
    deleteEvents :=
      s.deleteEvents ++ (deadEntries s.layersRenderers).map (fun p => p.2.id) }

/-- Method `render()` (source lines 118-154): the loop over the layout's layers,
then `_updatePixiObjectsZOrder()`, then `_cleanUnusedLayerRenderers()`.
The layout is the ordered list of current layers
(`getLayerAt 0 .. getLayerAt (getLayersCount - 1)`). -/
def render (s : InstancesRenderer) (layout : List Layer) : InstancesRenderer :=
  cleanUnusedLayerRenderers (updatePixiObjectsZOrder (s.renderLoop 0 layout))

/-- Method `resetInstanceRenderersFor(objectName)` (source lines 169-176): forward
the call to every current layer renderer, in map order; nothing else. -/
def resetInstanceRenderersFor (s : InstancesRenderer) (objectName : String) :
    InstancesRenderer :=
  { s with
    resetEvents :=
      s.resetEvents ++
        s.layersRenderers.map (fun p => (p.2.id, objectName)) }

/-- Method `delete()` (source lines 194-204): invoke `delete()` on every renderer in
the map (entries are not removed from the map), then destroy the root pixi
container. -/
def delete (s : InstancesRenderer) : InstancesRenderer :=
  { s with
    deleteEvents := s.deleteEvents ++ s.layersRenderers.map (fun p => p.2.id)
    containerDestroyed := s.containerDestroyed + 1 }

/-- A sequence of `render()` calls starting from the freshly constructed
state, one layout snapshot per call. -/
def runRenders (layouts : List (List Layer)) : InstancesRenderer :=
  layouts.foldl render initial

end InstancesRenderer

/-- An instance (`gdInitialInstance`) as consumed by the measurer facade:
`layerName` is `instance.getLayer()`, `x`/`y` the raw stored position
(`getX()`/`getY()`), `withCustomSize` the `hasCustomSize()` flag and
`customWidth`/`customHeight` the custom size (`getCustomWidth()` /
`getCustomHeight()`). -/
structure GdInitialInstance where
  layerName : String
  x : Int
  y : Int
  withCustomSize : Bool
  customWidth : Int
  customHeight : Int
deriving DecidableEq, Repr

/-- The geometry answers of the external `LayerRenderer` collaborators,
indexed by renderer id: `layerRenderer.getInstanceLeft(instance)` and
friends.  `InstancesRenderer` treats these as opaque. -/
structure LayerRendererGeometry where
  instLeft : Nat → GdInitialInstance → Int
  instTop : Nat → GdInitialInstance → Int
  instWidth : Nat → GdInitialInstance → Int
  instHeight : Nat → GdInitialInstance → Int

/-- The rectangle returned by `instanceMeasurer.getInstanceRect` (source
lines 99-106). -/
structure InstanceRect where
  x : Int
  y : Int
  width : Int
  height : Int
deriving DecidableEq, Repr

namespace InstancesRenderer

/-- Query `instanceMeasurer.getInstanceLeft` (source lines 66-72): delegate to the
renderer of the instance's layer when it exists, else fall back to the raw
stored x. -/
def getInstanceLeft (s : InstancesRenderer) (g : LayerRendererGeometry)
    (inst : GdInitialInstance) : Int :=
  match s.lookupRenderer inst.layerName with
  | none => inst.x
  | some r => g.instLeft r.id inst

/-- Query `instanceMeasurer.getInstanceTop` (source lines 73-79). -/
def getInstanceTop (s : InstancesRenderer) (g : LayerRendererGeometry)
    (inst : GdInitialInstance) : Int :=
  match s.lookupRenderer inst.layerName with
  | none => inst.y
  | some r => g.instTop r.id inst

/-- Query `instanceMeasurer.getInstanceWidth` (source lines 80-88): the custom
width when `hasCustomSize()`, else delegate, else `0`. -/
def getInstanceWidth (s : InstancesRenderer) (g : LayerRendererGeometry)
    (inst : GdInitialInstance) : Int :=
  if inst.withCustomSize then inst.customWidth
  else
    match s.lookupRenderer inst.layerName with
    | none => 0
    | some r => g.instWidth r.id inst

/-- Query `instanceMeasurer.getInstanceHeight` (source lines 90-98). -/
def getInstanceHeight (s : InstancesRenderer) (g : LayerRendererGeometry)
    (inst : GdInitialInstance) : Int :=
  if inst.withCustomSize then inst.customHeight
  else
    match s.lookupRenderer inst.layerName with
    | none => 0
    | some r => g.instHeight r.id inst

/-- Query `instanceMeasurer.getInstanceRect` (source lines 99-106): the record
composed from the four queries above. -/
def getInstanceRect (s : InstancesRenderer) (g : LayerRendererGeometry)
    (inst : GdInitialInstance) : InstanceRect :=
  { x := s.getInstanceLeft g inst
    y := s.getInstanceTop g inst
    width := s.getInstanceWidth g inst
    height := s.getInstanceHeight g inst }

end InstancesRenderer

namespace InstancesRenderer

/-- The keys of the `layersRenderers` map, in insertion order. -/
def rendererKeys (m : List (String × LayerRenderer)) : List String :=
  m.map Prod.fst

/-- The renderer ids of the `layersRenderers` map entries, in insertion
order. -/
def rendererIds (m : List (String × LayerRenderer)) : List Nat :=
  m.map (fun p => p.2.id)

/-- The names the layout reports, in order (`getLayerAt(i).getName()`). -/
def layerNames (L : List Layer) : List String :=
  L.map Layer.name

end InstancesRenderer

/-- A concrete geometry oracle for the external `LayerRenderer`
collaborators, used to evaluate the measurer facade on sample inputs: each
query answers the renderer id plus a tag distinguishing the four queries. -/
def sampleGeometry : LayerRendererGeometry :=
  { instLeft := fun cid _ => (cid : Int) + 100
    instTop := fun cid _ => (cid : Int) + 200
    instWidth := fun cid _ => (cid : Int) + 300
    instHeight := fun cid _ => (cid : Int) + 400 }

namespace InstancesRenderer

/-- Well-formedness of an `InstancesRenderer` state, established by the
constructor and preserved by every `render()` call: map keys are distinct,
renderer ids are distinct and below the fresh-id source, the root
container's children are exactly the drawables of the mapped renderers (up
to order), every liveness flag is false between passes, no mapped renderer
has had `delete()` invoked, and every logged `delete()` concerned an id
below the fresh-id source. -/
structure WF (s : InstancesRenderer) : Prop where
  keysNodup : (rendererKeys s.layersRenderers).Nodup
  idsNodup : (rendererIds s.layersRenderers).Nodup
  idsFresh : ∀ a ∈ rendererIds s.layersRenderers, a < s.nextId
  childrenPerm : s.children.Perm (rendererIds s.layersRenderers)
  flagsFalse : ∀ p ∈ s.layersRenderers, p.2.wasUsed = false
  liveNotDeleted : ∀ a ∈ rendererIds s.layersRenderers, a ∉ s.deleteEvents
  eventsFresh : ∀ a ∈ s.deleteEvents, a < s.nextId

theorem WF_initial : WF initial := by
  constructor <;> simp [initial, rendererKeys, rendererIds]

theorem lookupRenderer_eq_none_iff (s : InstancesRenderer) (n : String) :
    s.lookupRenderer n = none ↔ n ∉ rendererKeys s.layersRenderers := by
  unfold lookupRenderer rendererKeys
  cases hf : s.layersRenderers.find? (fun p => p.1 == n) with
  | none =>
      simp only [Option.map_none', List.mem_map, true_iff]
      rintro ⟨p, hp, hpn⟩
      have := List.find?_eq_none.1 hf p hp
      rw [hpn] at this
      simp at this
  | some p =>
      simp only [Option.map_some', List.mem_map]
      constructor
      · intro h
        cases h
      · intro h
        exfalso
        refine h ⟨p, List.mem_of_find?_eq_some hf, ?_⟩
        simpa using List.find?_some hf

theorem lookupRenderer_mem {s : InstancesRenderer} {n : String}
    {r : LayerRenderer} (h : s.lookupRenderer n = some r) :
    (n, r) ∈ s.layersRenderers := by
  unfold lookupRenderer at h
  cases hf : s.layersRenderers.find? (fun p => p.1 == n) with
  | none =>
      rw [hf] at h
      cases h
  | some p =>
      rw [hf] at h
      have hkey : p.1 = n := by simpa using List.find?_some hf
      have hsnd : p.2 = r := by simpa using h
      have hmem := List.mem_of_find?_eq_some hf
      have hpr : p = (n, r) := by
        cases p with
        | mk a b =>
            simp only at hkey hsnd
            rw [hkey, hsnd]
      rwa [hpr] at hmem

theorem mem_rendererIds_of_lookup {s : InstancesRenderer} {n : String}
    {r : LayerRenderer} (h : s.lookupRenderer n = some r) :
    r.id ∈ rendererIds s.layersRenderers := by
  have := lookupRenderer_mem h
  exact List.mem_map.2 ⟨(n, r), this, rfl⟩

end InstancesRenderer

namespace InstancesRenderer

theorem find?_eq_none_of_lookup_none {s : InstancesRenderer} {n : String}
    (h : s.lookupRenderer n = none) :
    s.layersRenderers.find? (fun p => p.1 == n) = none := by
  unfold lookupRenderer at h
  exact Option.map_eq_none'.1 h

theorem find?_eq_some_of_lookup_some {s : InstancesRenderer} {n : String}
    {r : LayerRenderer} (h : s.lookupRenderer n = some r) :
    s.layersRenderers.find? (fun p => p.1 == n) = some (n, r) := by
  unfold lookupRenderer at h
  cases hf : s.layersRenderers.find? (fun p => p.1 == n) with
  | none => rw [hf] at h; cases h
  | some p =>
      rw [hf] at h
      have hsnd : p.2 = r := by simpa using h
      have hkey : p.1 = n := by simpa using List.find?_some hf
      rw [← hkey, ← hsnd]

theorem renderStep_of_none {s : InstancesRenderer} {i : Nat} {layer : Layer}
    (h : s.lookupRenderer layer.name = none) :
    s.renderStep i layer =
      { s with
        layersRenderers := s.layersRenderers ++
          [(layer.name,
            { id := s.nextId, layer := layer, wasUsed := true, zOrder := i })]
        children := s.children ++ [s.nextId]
        nextId := s.nextId + 1 } := by
  unfold renderStep
  rw [h]

theorem renderStep_of_some {s : InstancesRenderer} {i : Nat} {layer : Layer}
    {r : LayerRenderer} (h : s.lookupRenderer layer.name = some r) :
    s.renderStep i layer =
      { s with
        layersRenderers := s.layersRenderers.map (fun p =>
          if p.1 == layer.name then
            (p.1, { p.2 with layer := layer, wasUsed := true, zOrder := i })
          else p) } := by
  unfold renderStep
  rw [h]

theorem renderStep_events (s : InstancesRenderer) (i : Nat) (layer : Layer) :
    (s.renderStep i layer).deleteEvents = s.deleteEvents ∧
      (s.renderStep i layer).resetEvents = s.resetEvents ∧
      (s.renderStep i layer).containerDestroyed = s.containerDestroyed := by
  cases hf : s.lookupRenderer layer.name with
  | none => rw [renderStep_of_none hf]; exact ⟨rfl, rfl, rfl⟩
  | some r => rw [renderStep_of_some hf]; exact ⟨rfl, rfl, rfl⟩

theorem nextId_le_renderStep (s : InstancesRenderer) (i : Nat) (layer : Layer) :
    s.nextId ≤ (s.renderStep i layer).nextId := by
  cases hf : s.lookupRenderer layer.name with
  | none => rw [renderStep_of_none hf]; exact Nat.le_succ _
  | some r => rw [renderStep_of_some hf]

theorem lookupRenderer_renderStep_self_none {s : InstancesRenderer} {i : Nat}
    {layer : Layer} (hf : s.lookupRenderer layer.name = none) :
    (s.renderStep i layer).lookupRenderer layer.name =
      some { id := s.nextId, layer := layer, wasUsed := true, zOrder := i } := by
  rw [renderStep_of_none hf]
  unfold lookupRenderer
  simp [List.find?_append, find?_eq_none_of_lookup_none hf, List.find?_cons]

theorem lookupRenderer_renderStep_self_some {s : InstancesRenderer} {i : Nat}
    {layer : Layer} {r : LayerRenderer}
    (hf : s.lookupRenderer layer.name = some r) :
    (s.renderStep i layer).lookupRenderer layer.name =
      some { r with layer := layer, wasUsed := true, zOrder := i } := by
  rw [renderStep_of_some hf]
  unfold lookupRenderer
  simp only
  rw [List.find?_map]
  have hpf : ((fun q : String × LayerRenderer => q.1 == layer.name) ∘
      (fun p : String × LayerRenderer =>
        if p.1 == layer.name then
          (p.1, { p.2 with layer := layer, wasUsed := true, zOrder := i })
        else p)) = (fun q : String × LayerRenderer => q.1 == layer.name) := by
    funext q
    cases hq : (q.1 == layer.name) with
    | false =>
        have hq2 : ¬ q.1 = layer.name := by simpa using hq
        simp [hq, hq2]
    | true =>
        have hq2 : q.1 = layer.name := by simpa using hq
        simp [hq, hq2]
  rw [hpf, find?_eq_some_of_lookup_some hf]
  simp

theorem lookupRenderer_renderStep_ne {s : InstancesRenderer} {i : Nat}
    {layer : Layer} {n : String} (hne : n ≠ layer.name) :
    (s.renderStep i layer).lookupRenderer n = s.lookupRenderer n := by
  cases hf : s.lookupRenderer layer.name with
  | none =>
      rw [renderStep_of_none hf]
      unfold lookupRenderer
      simp only [List.find?_append]
      have hb : (layer.name == n) = false := by
        simp only [beq_eq_false_iff_ne]
        exact Ne.symm hne
      have hsingle :
          List.find? (fun p : String × LayerRenderer => p.1 == n)
            [(layer.name,
              { id := s.nextId, layer := layer, wasUsed := true,
                zOrder := i })] = none := by
        simp [List.find?_cons, hb]
      rw [hsingle]
      simp
  | some r =>
      rw [renderStep_of_some hf]
      unfold lookupRenderer
      simp only
      rw [List.find?_map]
      have hpf : ((fun q : String × LayerRenderer => q.1 == n) ∘
          (fun p : String × LayerRenderer =>
            if p.1 == layer.name then
              (p.1, { p.2 with layer := layer, wasUsed := true, zOrder := i })
            else p)) = (fun q : String × LayerRenderer => q.1 == n) := by
        funext q
        cases hq : (q.1 == layer.name) with
        | false =>
            have hq2 : ¬ q.1 = layer.name := by simpa using hq
            simp [hq, hq2]
        | true =>
            have hq2 : q.1 = layer.name := by simpa using hq
            simp [hq, hq2]
      rw [hpf]
      cases hg : s.layersRenderers.find? (fun q => q.1 == n) with
      | none => simp
      | some p =>
          have hkey : p.1 = n := by simpa using List.find?_some hg
          simp [hkey, hne]

end InstancesRenderer

namespace InstancesRenderer

theorem mem_renderStep_cases {s : InstancesRenderer} {i : Nat} {layer : Layer}
    {p : String × LayerRenderer}
    (hp : p ∈ (s.renderStep i layer).layersRenderers) :
    (p ∈ s.layersRenderers ∧ p.1 ≠ layer.name) ∨
      (p.1 = layer.name ∧ p.2.wasUsed = true ∧ p.2.layer = layer ∧
        p.2.zOrder = i ∧
        ((∃ q ∈ s.layersRenderers, q.1 = layer.name ∧ q.2.id = p.2.id) ∨
          (s.lookupRenderer layer.name = none ∧ p.2.id = s.nextId))) := by
  cases hf : s.lookupRenderer layer.name with
  | none =>
      rw [renderStep_of_none hf] at hp
      simp only [List.mem_append, List.mem_singleton] at hp
      rcases hp with hp | hp
      · left
        refine ⟨hp, ?_⟩
        intro hkey
        have : layer.name ∈ rendererKeys s.layersRenderers :=
          List.mem_map.2 ⟨p, hp, hkey⟩
        exact (lookupRenderer_eq_none_iff s layer.name).1 hf this
      · right
        rw [hp]
        exact ⟨rfl, rfl, rfl, rfl, Or.inr ⟨rfl, rfl⟩⟩
  | some r =>
      rw [renderStep_of_some hf] at hp
      rw [List.mem_map] at hp
      obtain ⟨q, hq, hfq⟩ := hp
      by_cases hqn : q.1 = layer.name
      · right
        have hcond : (q.1 == layer.name) = true := by simpa using hqn
        rw [hcond] at hfq
        simp only [if_true] at hfq
        rw [← hfq]
        exact ⟨hqn, rfl, rfl, rfl, Or.inl ⟨q, hq, hqn, rfl⟩⟩
      · left
        have hcond : (q.1 == layer.name) = false := by simpa using hqn
        rw [hcond] at hfq
        simp only [Bool.false_eq_true, if_false] at hfq
        rw [← hfq]
        exact ⟨hq, hqn⟩

theorem mem_renderStep_of_ne {s : InstancesRenderer} {i : Nat} {layer : Layer}
    {p : String × LayerRenderer} (hp : p ∈ s.layersRenderers)
    (hne : p.1 ≠ layer.name) :
    p ∈ (s.renderStep i layer).layersRenderers := by
  cases hf : s.lookupRenderer layer.name with
  | none =>
      rw [renderStep_of_none hf]
      exact List.mem_append.2 (Or.inl hp)
  | some r =>
      rw [renderStep_of_some hf]
      rw [List.mem_map]
      refine ⟨p, hp, ?_⟩
      have hcond : (p.1 == layer.name) = false := by simpa using hne
      rw [hcond]
      simp

theorem rendererKeys_renderStep_none {s : InstancesRenderer} {i : Nat}
    {layer : Layer} (hf : s.lookupRenderer layer.name = none) :
    rendererKeys (s.renderStep i layer).layersRenderers =
      rendererKeys s.layersRenderers ++ [layer.name] := by
  rw [renderStep_of_none hf]
  unfold rendererKeys
  simp

theorem rendererKeys_renderStep_some {s : InstancesRenderer} {i : Nat}
    {layer : Layer} {r : LayerRenderer}
    (hf : s.lookupRenderer layer.name = some r) :
    rendererKeys (s.renderStep i layer).layersRenderers =
      rendererKeys s.layersRenderers := by
  rw [renderStep_of_some hf]
  unfold rendererKeys
  simp only [List.map_map]
  apply List.map_congr_left
  intro p _
  cases hq : (p.1 == layer.name) with
  | false =>
      have hq2 : ¬ p.1 = layer.name := by simpa using hq
      simp [hq, hq2]
  | true =>
      have hq2 : p.1 = layer.name := by simpa using hq
      simp [hq, hq2]

theorem rendererIds_renderStep_none {s : InstancesRenderer} {i : Nat}
    {layer : Layer} (hf : s.lookupRenderer layer.name = none) :
    rendererIds (s.renderStep i layer).layersRenderers =
      rendererIds s.layersRenderers ++ [s.nextId] ∧
      (s.renderStep i layer).children = s.children ++ [s.nextId] ∧
      (s.renderStep i layer).nextId = s.nextId + 1 := by
  rw [renderStep_of_none hf]
  refine ⟨?_, rfl, rfl⟩
  unfold rendererIds
  simp

theorem rendererIds_renderStep_some {s : InstancesRenderer} {i : Nat}
    {layer : Layer} {r : LayerRenderer}
    (hf : s.lookupRenderer layer.name = some r) :
    rendererIds (s.renderStep i layer).layersRenderers =
      rendererIds s.layersRenderers ∧
      (s.renderStep i layer).children = s.children ∧
      (s.renderStep i layer).nextId = s.nextId := by
  rw [renderStep_of_some hf]
  refine ⟨?_, rfl, rfl⟩
  unfold rendererIds
  simp only [List.map_map]
  apply List.map_congr_left
  intro p _
  cases hq : (p.1 == layer.name) with
  | false =>
      have hq2 : ¬ p.1 = layer.name := by simpa using hq
      simp [hq, hq2]
  | true =>
      have hq2 : p.1 = layer.name := by simpa using hq
      simp [hq, hq2]

end InstancesRenderer

namespace InstancesRenderer

theorem layerNames_cons (layer : Layer) (rest : List Layer) :
    layerNames (layer :: rest) = layer.name :: layerNames rest := rfl

theorem renderLoop_events (L : List Layer) :
    ∀ (s : InstancesRenderer) (i : Nat),
      (s.renderLoop i L).deleteEvents = s.deleteEvents ∧
      (s.renderLoop i L).resetEvents = s.resetEvents ∧
      (s.renderLoop i L).containerDestroyed = s.containerDestroyed := by
  induction L with
  | nil => intro s i; exact ⟨rfl, rfl, rfl⟩
  | cons layer rest ih =>
      intro s i
      have h1 := renderStep_events s i layer
      have h2 := ih (s.renderStep i layer) (i + 1)
      simp only [renderLoop]
      exact ⟨h2.1.trans h1.1, h2.2.1.trans h1.2.1, h2.2.2.trans h1.2.2⟩

theorem nextId_le_renderLoop (L : List Layer) :
    ∀ (s : InstancesRenderer) (i : Nat),
      s.nextId ≤ (s.renderLoop i L).nextId := by
  induction L with
  | nil => intro s i; exact Nat.le_refl _
  | cons layer rest ih =>
      intro s i
      simp only [renderLoop]
      exact (nextId_le_renderStep s i layer).trans (ih _ _)

theorem lookupRenderer_renderLoop_notmem (L : List Layer) :
    ∀ (s : InstancesRenderer) (i : Nat) (n : String), n ∉ layerNames L →
      (s.renderLoop i L).lookupRenderer n = s.lookupRenderer n := by
  induction L with
  | nil => intro s i n _; rfl
  | cons layer rest ih =>
      intro s i n hn
      rw [layerNames_cons, List.mem_cons] at hn
      push_neg at hn
      simp only [renderLoop]
      rw [ih _ _ _ hn.2]
      exact lookupRenderer_renderStep_ne hn.1

theorem mem_rendererKeys_renderLoop (L : List Layer) :
    ∀ (s : InstancesRenderer) (i : Nat) (n : String),
      n ∈ rendererKeys (s.renderLoop i L).layersRenderers ↔
        n ∈ rendererKeys s.layersRenderers ∨ n ∈ layerNames L := by
  induction L with
  | nil =>
      intro s i n
      simp [renderLoop, layerNames]
  | cons layer rest ih =>
      intro s i n
      simp only [renderLoop]
      rw [ih, layerNames_cons, List.mem_cons]
      cases hf : s.lookupRenderer layer.name with
      | none =>
          rw [rendererKeys_renderStep_none hf, List.mem_append,
            List.mem_singleton]
          tauto
      | some r =>
          rw [rendererKeys_renderStep_some hf]
          constructor
          · tauto
          · rintro (h | h | h)
            · exact Or.inl h
            · left
              rw [h]
              exact List.mem_map.2 ⟨(layer.name, r), lookupRenderer_mem hf, rfl⟩
            · exact Or.inr h

theorem keysNodup_renderLoop (L : List Layer) :
    ∀ (s : InstancesRenderer) (i : Nat),
      (rendererKeys s.layersRenderers).Nodup →
      (rendererKeys (s.renderLoop i L).layersRenderers).Nodup := by
  induction L with
  | nil => intro s i h; exact h
  | cons layer rest ih =>
      intro s i h
      simp only [renderLoop]
      apply ih
      cases hf : s.lookupRenderer layer.name with
      | none =>
          rw [rendererKeys_renderStep_none hf]
          have hnot := (lookupRenderer_eq_none_iff s layer.name).1 hf
          simp [List.nodup_append, h, hnot]
      | some r =>
          rw [rendererKeys_renderStep_some hf]
          exact h

theorem rendererIds_children_renderLoop (L : List Layer) :
    ∀ (s : InstancesRenderer) (i : Nat),
      ∃ ns : List Nat,
        rendererIds (s.renderLoop i L).layersRenderers =
          rendererIds s.layersRenderers ++ ns ∧
        (s.renderLoop i L).children = s.children ++ ns ∧
        (∀ c ∈ ns, s.nextId ≤ c ∧ c < (s.renderLoop i L).nextId) ∧
        ns.Pairwise (· < ·) := by
  induction L with
  | nil =>
      intro s i
      exact ⟨[], by simp [renderLoop], by simp [renderLoop], by simp,
        List.Pairwise.nil⟩
  | cons layer rest ih =>
      intro s i
      simp only [renderLoop]
      obtain ⟨ns, h1, h2, h3, h4⟩ := ih (s.renderStep i layer) (i + 1)
      cases hf : s.lookupRenderer layer.name with
      | none =>
          obtain ⟨hids, hch, hnext⟩ := rendererIds_renderStep_none hf
          refine ⟨s.nextId :: ns, ?_, ?_, ?_, ?_⟩
          · rw [h1, hids]
            simp
          · rw [h2, hch]
            simp
          · intro c hc
            rcases List.mem_cons.1 hc with rfl | hc
            · refine ⟨Nat.le_refl _, ?_⟩
              have hmono := nextId_le_renderLoop rest (s.renderStep i layer)
                (i + 1)
              rw [hnext] at hmono
              exact Nat.lt_of_lt_of_le (Nat.lt_succ_self _) hmono
            · obtain ⟨hc1, hc2⟩ := h3 c hc
              rw [hnext] at hc1
              exact ⟨Nat.le_of_succ_le hc1, hc2⟩
          · refine List.Pairwise.cons ?_ h4
            intro c hc
            have hc1 := (h3 c hc).1
            rw [hnext] at hc1
            exact Nat.lt_of_lt_of_le (Nat.lt_succ_self _) hc1
      | some r =>
          obtain ⟨hids, hch, hnext⟩ := rendererIds_renderStep_some hf
          refine ⟨ns, ?_, ?_, ?_, h4⟩
          · rw [h1, hids]
          · rw [h2, hch]
          · intro c hc
            obtain ⟨hc1, hc2⟩ := h3 c hc
            rw [hnext] at hc1
            exact ⟨hc1, hc2⟩

theorem renderLoop_flag_false (L : List Layer) :
    ∀ (s : InstancesRenderer) (i : Nat) (p : String × LayerRenderer),
      p ∈ (s.renderLoop i L).layersRenderers → p.2.wasUsed = false →
      p ∈ s.layersRenderers ∧ p.1 ∉ layerNames L := by
  induction L with
  | nil =>
      intro s i p hp _
      exact ⟨hp, by simp [layerNames]⟩
  | cons layer rest ih =>
      intro s i p hp hw
      simp only [renderLoop] at hp
      obtain ⟨hp1, hp2⟩ := ih _ _ p hp hw
      rcases mem_renderStep_cases hp1 with ⟨hmem, hne⟩ | ⟨-, htrue, -, -, -⟩
      · refine ⟨hmem, ?_⟩
        rw [layerNames_cons, List.mem_cons]
        rintro (h | h)
        · exact hne h
        · exact hp2 h
      · rw [htrue] at hw
        cases hw

theorem renderLoop_flag_true_cases (L : List Layer) :
    ∀ (s : InstancesRenderer) (i : Nat) (p : String × LayerRenderer),
      p ∈ (s.renderLoop i L).layersRenderers → p.2.wasUsed = true →
      p.1 ∈ layerNames L ∨ (p ∈ s.layersRenderers ∧ p.2.wasUsed = true) := by
  induction L with
  | nil => intro s i p hp hw; exact Or.inr ⟨hp, hw⟩
  | cons layer rest ih =>
      intro s i p hp hw
      simp only [renderLoop] at hp
      rcases ih _ _ p hp hw with h | ⟨hp1, hw1⟩
      · left
        rw [layerNames_cons]
        exact List.mem_cons.2 (Or.inr h)
      · rcases mem_renderStep_cases hp1 with ⟨hmem, -⟩ | ⟨hkey, -, -, -, -⟩
        · exact Or.inr ⟨hmem, hw1⟩
        · left
          rw [layerNames_cons]
          exact List.mem_cons.2 (Or.inl hkey)

end InstancesRenderer

namespace InstancesRenderer

theorem renderLoop_lookup_touched (L : List Layer) :
    ∀ (s : InstancesRenderer) (i : Nat) (j : Fin L.length),
      (layerNames L).Nodup →
      ∃ r : LayerRenderer,
        (s.renderLoop i L).lookupRenderer (L.get j).name = some r ∧
        r.wasUsed = true ∧ r.zOrder = i + (j : Nat) ∧ r.layer = L.get j ∧
        (∀ r0, s.lookupRenderer (L.get j).name = some r0 → r.id = r0.id) ∧
        (s.lookupRenderer (L.get j).name = none → s.nextId ≤ r.id) := by
  induction L with
  | nil =>
      intro s i j _
      exact absurd j.isLt (by simp)
  | cons layer rest ih =>
      intro s i j hnd
      rw [layerNames_cons] at hnd
      obtain ⟨hnotin, hndrest⟩ := List.nodup_cons.1 hnd
      rcases j with ⟨jv, hjlt⟩
      cases jv with
      | zero =>
          have hget0 : (layer :: rest).get ⟨0, hjlt⟩ = layer := rfl
          rw [hget0]
          simp only [renderLoop]
          rw [lookupRenderer_renderLoop_notmem rest (s.renderStep i layer)
            (i + 1) layer.name hnotin]
          cases hf : s.lookupRenderer layer.name with
          | none =>
              refine ⟨_, lookupRenderer_renderStep_self_none hf, rfl, ?_,
                rfl, ?_, ?_⟩
              · simp
              · intro r0 h0
                cases h0
              · intro _
                exact Nat.le_refl _
          | some r0 =>
              refine ⟨_, lookupRenderer_renderStep_self_some hf, rfl, ?_,
                rfl, ?_, ?_⟩
              · simp
              · intro r1 h1
                cases h1
                rfl
              · intro hnone
                cases hnone
      | succ j' =>
          have hjlt2 : j' < rest.length := Nat.lt_of_succ_lt_succ hjlt
          have hget : (layer :: rest).get ⟨j' + 1, hjlt⟩ =
            rest.get ⟨j', hjlt2⟩ := rfl
          rw [hget]
          simp only [renderLoop]
          obtain ⟨r, hr, hw, hz, hl, hid, hfresh⟩ :=
            ih (s.renderStep i layer) (i + 1) ⟨j', hjlt2⟩ hndrest
          have hnamene : (rest.get ⟨j', hjlt2⟩).name ≠ layer.name := by
            intro he
            apply hnotin
            rw [← he]
            exact List.mem_map.2 ⟨rest.get ⟨j', hjlt2⟩,
              List.get_mem _ _ _, rfl⟩
          refine ⟨r, hr, hw, ?_, hl, ?_, ?_⟩
          · rw [hz]
            simp
            omega
          · intro r0 h0
            apply hid
            rw [lookupRenderer_renderStep_ne hnamene]
            exact h0
          · intro hnone
            have hstep : (s.renderStep i layer).lookupRenderer
                (rest.get ⟨j', hjlt2⟩).name = none := by
              rw [lookupRenderer_renderStep_ne hnamene]
              exact hnone
            exact (nextId_le_renderStep s i layer).trans (hfresh hstep)

end InstancesRenderer

namespace InstancesRenderer

theorem rendererKeys_clean_entries (m : List (String × LayerRenderer)) :
    rendererKeys (m.filterMap (fun p =>
        if p.2.wasUsed then some (p.1, { p.2 with wasUsed := false })
        else none)) =
      rendererKeys (m.filter (fun p => p.2.wasUsed)) := by
  induction m with
  | nil => rfl
  | cons p rest ih =>
      cases hw : p.2.wasUsed with
      | true =>
          simp only [List.filterMap_cons, List.filter_cons, hw, if_true]
          unfold rendererKeys at ih ⊢
          simp only [List.map_cons]
          rw [ih]
      | false =>
          simp only [List.filterMap_cons, List.filter_cons, hw]
          simpa using ih

theorem rendererIds_clean_entries (m : List (String × LayerRenderer)) :
    rendererIds (m.filterMap (fun p =>
        if p.2.wasUsed then some (p.1, { p.2 with wasUsed := false })
        else none)) =
      rendererIds (m.filter (fun p => p.2.wasUsed)) := by
  induction m with
  | nil => rfl
  | cons p rest ih =>
      cases hw : p.2.wasUsed with
      | true =>
          simp only [List.filterMap_cons, List.filter_cons, hw, if_true]
          unfold rendererIds at ih ⊢
          simp only [List.map_cons]
          rw [ih]
      | false =>
          simp only [List.filterMap_cons, List.filter_cons, hw]
          simpa using ih

theorem mem_clean_layersRenderers {s : InstancesRenderer}
    {p : String × LayerRenderer}
    (hp : p ∈ (cleanUnusedLayerRenderers s).layersRenderers) :
    ∃ q ∈ s.layersRenderers, q.1 = p.1 ∧ q.2.wasUsed = true ∧
      p.2 = { q.2 with wasUsed := false } := by
  simp only [cleanUnusedLayerRenderers] at hp
  rw [List.mem_filterMap] at hp
  obtain ⟨q, hq, hfq⟩ := hp
  cases hw : q.2.wasUsed with
  | false =>
      rw [hw] at hfq
      simp at hfq
  | true =>
      rw [hw] at hfq
      simp only [if_true] at hfq
      have heq := Option.some.inj hfq
      refine ⟨q, hq, ?_, hw, ?_⟩
      · rw [← heq]
      · rw [← heq]

theorem keys_clean_mem_of_mem {m : List (String × LayerRenderer)}
    {q : String × LayerRenderer}
    (hq : q ∈ m.filterMap (fun p =>
      if p.2.wasUsed then some (p.1, { p.2 with wasUsed := false })
      else none)) :
    q.1 ∈ rendererKeys m := by
  rw [List.mem_filterMap] at hq
  obtain ⟨a, ha, hfa⟩ := hq
  cases hw : a.2.wasUsed with
  | false =>
      rw [hw] at hfa
      simp at hfa
  | true =>
      rw [hw] at hfa
      simp only [if_true] at hfa
      have := Option.some.inj hfa
      rw [← this]
      exact List.mem_map.2 ⟨a, ha, rfl⟩

theorem find?_clean_entries (m : List (String × LayerRenderer)) (n : String)
    (hnd : (rendererKeys m).Nodup) :
    (m.filterMap (fun p =>
        if p.2.wasUsed then some (p.1, { p.2 with wasUsed := false })
        else none)).find? (fun p => p.1 == n) =
      match m.find? (fun p => p.1 == n) with
      | none => none
      | some q =>
          if q.2.wasUsed then some (q.1, { q.2 with wasUsed := false })
          else none := by
  induction m with
  | nil => rfl
  | cons p rest ih =>
      unfold rendererKeys at hnd
      rw [List.map_cons] at hnd
      obtain ⟨hnotin, hndrest⟩ := List.nodup_cons.1 hnd
      have ihr := ih hndrest
      cases hb : (p.1 == n) with
      | true =>
          have hn : p.1 = n := by simpa using hb
          cases hw : p.2.wasUsed with
          | true =>
              simp only [List.filterMap_cons, hw, if_true, List.find?, hb]
          | false =>
              simp only [List.filterMap_cons, hw, Bool.false_eq_true,
                if_false, List.find?, hb]
              apply List.find?_eq_none.2
              intro q hq hbq
              have hqkey : q.1 = n := by simpa using hbq
              apply hnotin
              have := keys_clean_mem_of_mem hq
              rw [hqkey, ← hn] at this
              exact this
      | false =>
          cases hw : p.2.wasUsed with
          | true =>
              simp only [List.filterMap_cons, hw, if_true, List.find?, hb]
              exact ihr
          | false =>
              simp only [List.filterMap_cons, hw, Bool.false_eq_true,
                if_false, List.find?, hb]
              exact ihr

theorem lookupRenderer_clean (s : InstancesRenderer)
    (hnd : (rendererKeys s.layersRenderers).Nodup) (n : String) :
    (cleanUnusedLayerRenderers s).lookupRenderer n =
      match s.lookupRenderer n with
      | none => none
      | some r =>
          if r.wasUsed then some { r with wasUsed := false } else none := by
  unfold lookupRenderer
  show ((cleanUnusedLayerRenderers s).layersRenderers.find?
      (fun p => p.1 == n)).map Prod.snd = _
  have hcl : (cleanUnusedLayerRenderers s).layersRenderers =
      s.layersRenderers.filterMap (fun p =>
        if p.2.wasUsed then some (p.1, { p.2 with wasUsed := false })
        else none) := rfl
  rw [hcl, find?_clean_entries s.layersRenderers n hnd]
  cases hf : s.layersRenderers.find? (fun p => p.1 == n) with
  | none => rfl
  | some q =>
      cases hw : q.2.wasUsed with
      | true => simp [hw]
      | false => simp [hw]

end InstancesRenderer

namespace InstancesRenderer

theorem foldl_erase_eq_filter (ds : List (String × LayerRenderer)) :
    ∀ (l : List Nat), l.Nodup →
      ds.foldl (fun cs p => cs.erase p.2.id) l =
        l.filter (fun c => decide (c ∉ rendererIds ds)) := by
  induction ds with
  | nil =>
      intro l _
      simp [rendererIds]
  | cons d ds ih =>
      intro l hl
      simp only [List.foldl_cons]
      rw [ih (l.erase d.2.id) (hl.erase _)]
      rw [List.Nodup.erase_eq_filter hl]
      rw [List.filter_filter]
      apply List.filter_congr
      intro c _
      have hids : rendererIds (d :: ds) = d.2.id :: rendererIds ds := rfl
      rw [hids]
      simp [List.mem_cons, not_or, bne, Decidable.imp_iff_not_or]
      have hbd : (c == d.2.id) = decide (c = d.2.id) := by
        by_cases hd : c = d.2.id
        · simp [hd]
        · simp [hd]
      rw [hbd, Bool.and_comm]

theorem rendererIds_dead_subset {m : List (String × LayerRenderer)} {a : Nat}
    (ha : a ∈ rendererIds (deadEntries m)) : a ∈ rendererIds m :=
  List.Sublist.subset ((List.filter_sublist m).map _) ha

theorem rendererIds_filter_live (m : List (String × LayerRenderer))
    (h : (rendererIds m).Nodup) :
    (rendererIds m).filter
        (fun c => decide (c ∉ rendererIds (deadEntries m))) =
      rendererIds (m.filter (fun p => p.2.wasUsed)) := by
  induction m with
  | nil => rfl
  | cons p rest ih =>
      have hids : rendererIds (p :: rest) = p.2.id :: rendererIds rest := rfl
      rw [hids] at h ⊢
      obtain ⟨hnotin, hndrest⟩ := List.nodup_cons.1 h
      cases hw : p.2.wasUsed with
      | true =>
          have hdead : deadEntries (p :: rest) = deadEntries rest := by
            simp [deadEntries, List.filter_cons, hw]
          rw [hdead, List.filter_cons]
          have hpred :
              (decide (p.2.id ∉ rendererIds (deadEntries rest))) = true := by
            simp only [decide_eq_true_eq]
            intro hmem
            exact hnotin (rendererIds_dead_subset hmem)
          rw [hpred]
          simp only [if_true]
          rw [ih hndrest]
          have hr : rendererIds ((p :: rest).filter
              (fun p => p.2.wasUsed)) =
              p.2.id :: rendererIds (rest.filter (fun p => p.2.wasUsed)) := by
            simp [List.filter_cons, hw, rendererIds]
          rw [hr]
      | false =>
          have hdead : deadEntries (p :: rest) = p :: deadEntries rest := by
            simp [deadEntries, List.filter_cons, hw]
          rw [hdead, List.filter_cons]
          have hpred :
              (decide (p.2.id ∉ rendererIds (p :: deadEntries rest))) =
              false := by
            simp [rendererIds]
          rw [hpred]
          simp only [Bool.false_eq_true, if_false]
          have hcong : (rendererIds rest).filter
              (fun c => decide (c ∉ rendererIds (p :: deadEntries rest))) =
              (rendererIds rest).filter
              (fun c => decide (c ∉ rendererIds (deadEntries rest))) := by
            apply List.filter_congr
            intro c hc
            have hcne : ¬ c = p.2.id := by
              intro he
              rw [he] at hc
              exact hnotin hc
            have hids2 : rendererIds (p :: deadEntries rest) =
                p.2.id :: rendererIds (deadEntries rest) := rfl
            rw [hids2]
            simp [List.mem_cons, hcne]
          rw [hcong, ih hndrest]
          have hr : rendererIds ((p :: rest).filter
              (fun p => p.2.wasUsed)) =
              rendererIds (rest.filter (fun p => p.2.wasUsed)) := by
            simp [List.filter_cons, hw, rendererIds]
          rw [hr]

theorem children_clean (s : InstancesRenderer) (hnd : s.children.Nodup) :
    (cleanUnusedLayerRenderers s).children =
      s.children.filter
        (fun c => decide (c ∉ rendererIds (deadEntries s.layersRenderers))) := by
  show (deadEntries s.layersRenderers).foldl
    (fun cs p => cs.erase p.2.id) s.children = _
  exact foldl_erase_eq_filter _ s.children hnd

theorem deleteEvents_clean (s : InstancesRenderer) :
    (cleanUnusedLayerRenderers s).deleteEvents =
      s.deleteEvents ++ rendererIds (deadEntries s.layersRenderers) := rfl

theorem clean_same_fields (s : InstancesRenderer) :
    (cleanUnusedLayerRenderers s).nextId = s.nextId ∧
    (cleanUnusedLayerRenderers s).resetEvents = s.resetEvents ∧
    (cleanUnusedLayerRenderers s).containerDestroyed =
      s.containerDestroyed :=
  ⟨rfl, rfl, rfl⟩

theorem sort_same_fields (s : InstancesRenderer) :
    (updatePixiObjectsZOrder s).layersRenderers = s.layersRenderers ∧
    (updatePixiObjectsZOrder s).nextId = s.nextId ∧
    (updatePixiObjectsZOrder s).deleteEvents = s.deleteEvents ∧
    (updatePixiObjectsZOrder s).resetEvents = s.resetEvents ∧
    (updatePixiObjectsZOrder s).containerDestroyed = s.containerDestroyed :=
  ⟨rfl, rfl, rfl, rfl, rfl⟩

theorem children_sort_perm (s : InstancesRenderer) :
    (updatePixiObjectsZOrder s).children.Perm s.children :=
  List.mergeSort_perm s.children _

end InstancesRenderer

namespace InstancesRenderer

theorem WF_render (s : InstancesRenderer) (L : List Layer) (hs : WF s) :
    WF (render s L) := by
  have hrender : render s L =
      cleanUnusedLayerRenderers (updatePixiObjectsZOrder (s.renderLoop 0 L)) :=
    rfl
  obtain ⟨ns, hids, hch, hbound, hpair⟩ := rendererIds_children_renderLoop L s 0
  have hkeysT : (rendererKeys (s.renderLoop 0 L).layersRenderers).Nodup :=
    keysNodup_renderLoop L s 0 hs.keysNodup
  have hidsT : (rendererIds (s.renderLoop 0 L).layersRenderers).Nodup := by
    rw [hids, List.nodup_append]
    refine ⟨hs.idsNodup, hpair.imp Nat.ne_of_lt, ?_⟩
    intro a ha hb
    have h1 := hs.idsFresh a ha
    have h2 := (hbound a hb).1
    omega
  have hfreshT : ∀ a ∈ rendererIds (s.renderLoop 0 L).layersRenderers,
      a < (s.renderLoop 0 L).nextId := by
    intro a ha
    rw [hids] at ha
    rcases List.mem_append.1 ha with ha | ha
    · exact Nat.lt_of_lt_of_le (hs.idsFresh a ha) (nextId_le_renderLoop L s 0)
    · exact (hbound a ha).2
  have hchT : (s.renderLoop 0 L).children.Perm
      (rendererIds (s.renderLoop 0 L).layersRenderers) := by
    rw [hids, hch]
    exact hs.childrenPerm.append_right ns
  have hchTnodup : (s.renderLoop 0 L).children.Nodup :=
    hchT.nodup_iff.2 hidsT
  have hm2 : (updatePixiObjectsZOrder (s.renderLoop 0 L)).layersRenderers =
      (s.renderLoop 0 L).layersRenderers := rfl
  have hch2perm : (updatePixiObjectsZOrder (s.renderLoop 0 L)).children.Perm
      (s.renderLoop 0 L).children := children_sort_perm _
  have hch2nodup : (updatePixiObjectsZOrder (s.renderLoop 0 L)).children.Nodup :=
    hch2perm.nodup_iff.2 hchTnodup
  have hevT : (s.renderLoop 0 L).deleteEvents = s.deleteEvents :=
    (renderLoop_events L s 0).1
  have hpartition := rendererIds_filter_live
    (s.renderLoop 0 L).layersRenderers hidsT
  have hlive_not_dead : ∀ a ∈ rendererIds
      ((s.renderLoop 0 L).layersRenderers.filter (fun p => p.2.wasUsed)),
      a ∉ rendererIds (deadEntries (s.renderLoop 0 L).layersRenderers) := by
    intro a ha
    rw [← hpartition] at ha
    have := (List.mem_filter.1 ha).2
    exact of_decide_eq_true this
  have hlive_sub : ∀ a ∈ rendererIds
      ((s.renderLoop 0 L).layersRenderers.filter (fun p => p.2.wasUsed)),
      a ∈ rendererIds (s.renderLoop 0 L).layersRenderers := by
    intro a ha
    exact List.Sublist.subset ((List.filter_sublist _).map _) ha
  rw [hrender]
  constructor
  · rw [show rendererKeys (cleanUnusedLayerRenderers
        (updatePixiObjectsZOrder (s.renderLoop 0 L))).layersRenderers =
        rendererKeys ((s.renderLoop 0 L).layersRenderers.filter
          (fun p => p.2.wasUsed)) from
      rendererKeys_clean_entries (s.renderLoop 0 L).layersRenderers]
    exact List.Nodup.sublist ((List.filter_sublist _).map _) hkeysT
  · rw [show rendererIds (cleanUnusedLayerRenderers
        (updatePixiObjectsZOrder (s.renderLoop 0 L))).layersRenderers =
        rendererIds ((s.renderLoop 0 L).layersRenderers.filter
          (fun p => p.2.wasUsed)) from
      rendererIds_clean_entries (s.renderLoop 0 L).layersRenderers]
    exact List.Nodup.sublist ((List.filter_sublist _).map _) hidsT
  · intro a ha
    rw [show rendererIds (cleanUnusedLayerRenderers
        (updatePixiObjectsZOrder (s.renderLoop 0 L))).layersRenderers =
        rendererIds ((s.renderLoop 0 L).layersRenderers.filter
          (fun p => p.2.wasUsed)) from
      rendererIds_clean_entries (s.renderLoop 0 L).layersRenderers] at ha
    exact hfreshT a (hlive_sub a ha)
  · rw [children_clean _ hch2nodup]
    rw [show rendererIds (cleanUnusedLayerRenderers
        (updatePixiObjectsZOrder (s.renderLoop 0 L))).layersRenderers =
        rendererIds ((s.renderLoop 0 L).layersRenderers.filter
          (fun p => p.2.wasUsed)) from
      rendererIds_clean_entries (s.renderLoop 0 L).layersRenderers]
    rw [← hpartition]
    exact (hch2perm.trans hchT).filter _
  · intro p hp
    obtain ⟨q, -, -, -, hval⟩ := mem_clean_layersRenderers hp
    rw [hval]
  · intro a ha
    rw [show rendererIds (cleanUnusedLayerRenderers
        (updatePixiObjectsZOrder (s.renderLoop 0 L))).layersRenderers =
        rendererIds ((s.renderLoop 0 L).layersRenderers.filter
          (fun p => p.2.wasUsed)) from
      rendererIds_clean_entries (s.renderLoop 0 L).layersRenderers] at ha
    rw [deleteEvents_clean]
    rw [List.mem_append]
    push_neg
    constructor
    · have haT := hlive_sub a ha
      rw [hids] at haT
      rw [show (updatePixiObjectsZOrder (s.renderLoop 0 L)).deleteEvents =
        s.deleteEvents from hevT]
      rcases List.mem_append.1 haT with h | h
      · exact hs.liveNotDeleted a h
      · intro hcon
        have h1 := hs.eventsFresh a hcon
        have h2 := (hbound a h).1
        omega
    · exact hlive_not_dead a ha
  · intro a ha
    rw [deleteEvents_clean] at ha
    have hnext : (cleanUnusedLayerRenderers
        (updatePixiObjectsZOrder (s.renderLoop 0 L))).nextId =
        (s.renderLoop 0 L).nextId := rfl
    rw [hnext]
    rcases List.mem_append.1 ha with h | h
    · rw [show (updatePixiObjectsZOrder (s.renderLoop 0 L)).deleteEvents =
        s.deleteEvents from hevT] at h
      exact Nat.lt_of_lt_of_le (hs.eventsFresh a h)
        (nextId_le_renderLoop L s 0)
    · exact hfreshT a (rendererIds_dead_subset h)

theorem WF_foldl_render (layouts : List (List Layer)) :
    ∀ (s : InstancesRenderer), WF s → WF (layouts.foldl render s) := by
  induction layouts with
  | nil => intro s hs; exact hs
  | cons L rest ih =>
      intro s hs
      simp only [List.foldl_cons]
      exact ih _ (WF_render s L hs)

theorem WF_runRenders (layouts : List (List Layer)) : WF (runRenders layouts) :=
  WF_foldl_render layouts initial WF_initial

end InstancesRenderer

namespace InstancesRenderer

theorem lookupRenderer_render (s : InstancesRenderer) (L : List Layer)
    (hs : WF s) (n : String) :
    (s.render L).lookupRenderer n =
      match (s.renderLoop 0 L).lookupRenderer n with
      | none => none
      | some r =>
          if r.wasUsed then some { r with wasUsed := false } else none := by
  have hk : (rendererKeys (updatePixiObjectsZOrder
      (s.renderLoop 0 L)).layersRenderers).Nodup :=
    keysNodup_renderLoop L s 0 hs.keysNodup
  exact lookupRenderer_clean (updatePixiObjectsZOrder (s.renderLoop 0 L)) hk n

/-- C6: at the end of every `render()` call, the liveness flag (`wasUsed`)
of every `LayerRenderer` entry remaining in `layersRenderers` is false:
`_cleanUnusedLayerRenderers` resets the flag on every entry that was marked
live during the pass and destroys every entry whose flag is still false, so
a flag is true only between being touched in a pass and that same pass's
cleanup step. -/
theorem flags_false_after_render (s : InstancesRenderer)
    (layout : List Layer) :
    ∀ p ∈ (s.render layout).layersRenderers, p.2.wasUsed = false := by
  intro p hp
  obtain ⟨q, -, -, -, hval⟩ := mem_clean_layersRenderers hp
  rw [hval]

theorem flags_false_after_render_witness :
    (("A", ({ id := 0, layer := ⟨"A", 7⟩, wasUsed := false, zOrder := 0 } :
        LayerRenderer)) : String × LayerRenderer).2.wasUsed = false :=
  flags_false_after_render initial [⟨"A", 7⟩] _ (by decide)

/-- C9: `getInstanceRect` returns exactly the record composed of
`getInstanceLeft`, `getInstanceTop`, `getInstanceWidth` and
`getInstanceHeight` applied to the same instance in the same state. -/
theorem getInstanceRect_composes (s : InstancesRenderer)
    (g : LayerRendererGeometry) (inst : GdInitialInstance) :
    s.getInstanceRect g inst =
      { x := s.getInstanceLeft g inst
        y := s.getInstanceTop g inst
        width := s.getInstanceWidth g inst
        height := s.getInstanceHeight g inst } := rfl

/-- C5: for an instance whose layer name has no renderer entry,
`getInstanceLeft`/`getInstanceTop` return the raw stored x/y and
width/height return the custom size when `hasCustomSize()` and `0`
otherwise; when a renderer exists, left/top delegate to it and width/height
still prefer the custom size, delegating only otherwise.  (All four queries
are total functions: no query errors.) -/
theorem instanceMeasurer_fallback (s : InstancesRenderer)
    (g : LayerRendererGeometry) (inst : GdInitialInstance) :
    (s.lookupRenderer inst.layerName = none →
      s.getInstanceLeft g inst = inst.x ∧
      s.getInstanceTop g inst = inst.y ∧
      s.getInstanceWidth g inst =
        (if inst.withCustomSize then inst.customWidth else 0) ∧
      s.getInstanceHeight g inst =
        (if inst.withCustomSize then inst.customHeight else 0)) ∧
    (∀ r, s.lookupRenderer inst.layerName = some r →
      s.getInstanceLeft g inst = g.instLeft r.id inst ∧
      s.getInstanceTop g inst = g.instTop r.id inst ∧
      s.getInstanceWidth g inst =
        (if inst.withCustomSize then inst.customWidth
          else g.instWidth r.id inst) ∧
      s.getInstanceHeight g inst =
        (if inst.withCustomSize then inst.customHeight
          else g.instHeight r.id inst)) := by
  constructor
  · intro h
    refine ⟨?_, ?_, ?_, ?_⟩ <;>
      simp [getInstanceLeft, getInstanceTop, getInstanceWidth,
        getInstanceHeight, h]
  · intro r h
    refine ⟨?_, ?_, ?_, ?_⟩ <;>
      simp [getInstanceLeft, getInstanceTop, getInstanceWidth,
        getInstanceHeight, h]

theorem instanceMeasurer_fallback_witness :
    getInstanceLeft initial sampleGeometry
        { layerName := "A", x := 3, y := 4, withCustomSize := false,
          customWidth := 5, customHeight := 6 } = (3 : Int) ∧
    getInstanceLeft (initial.render [⟨"A", 0⟩]) sampleGeometry
        { layerName := "A", x := 3, y := 4, withCustomSize := false,
          customWidth := 5, customHeight := 6 } =
      sampleGeometry.instLeft 0
        { layerName := "A", x := 3, y := 4, withCustomSize := false,
          customWidth := 5, customHeight := 6 } :=
  ⟨((instanceMeasurer_fallback initial sampleGeometry
      { layerName := "A", x := 3, y := 4, withCustomSize := false,
        customWidth := 5, customHeight := 6 }).1 (by decide)).1,
    ((instanceMeasurer_fallback (initial.render [⟨"A", 0⟩]) sampleGeometry
      { layerName := "A", x := 3, y := 4, withCustomSize := false,
        customWidth := 5, customHeight := 6 }).2
      { id := 0, layer := ⟨"A", 0⟩, wasUsed := false, zOrder := 0 }
      (by decide)).1⟩

/-- C8: `resetInstanceRenderersFor(objectName)` forwards the request to
every current `LayerRenderer` entry (one forwarded call per entry, in map
order), returns no other result, and leaves the renderer's own state — the
mapping, the root container's children, the fresh-id source and the other
logs — unchanged, for every `objectName`. -/
theorem resetInstanceRenderersFor_forwards (s : InstancesRenderer)
    (objectName : String) :
    (s.resetInstanceRenderersFor objectName).layersRenderers =
        s.layersRenderers ∧
      (s.resetInstanceRenderersFor objectName).children = s.children ∧
      (s.resetInstanceRenderersFor objectName).nextId = s.nextId ∧
      (s.resetInstanceRenderersFor objectName).deleteEvents =
        s.deleteEvents ∧
      (s.resetInstanceRenderersFor objectName).containerDestroyed =
        s.containerDestroyed ∧
      (s.resetInstanceRenderersFor objectName).resetEvents =
        s.resetEvents ++
          s.layersRenderers.map (fun p => (p.2.id, objectName)) :=
  ⟨rfl, rfl, rfl, rfl, rfl, rfl⟩

/-- C10: `delete()` does not remove entries from `layersRenderers` and does
not remove their drawables from the root container: the mapping and the
children are unchanged, so a second `delete()` invokes every entry's
teardown again (the log grows by the id list twice) instead of being a
no-op. -/
theorem delete_keeps_mapping (s : InstancesRenderer) :
    s.delete.layersRenderers = s.layersRenderers ∧
      s.delete.children = s.children ∧
      s.delete.delete.deleteEvents =
        s.deleteEvents ++ rendererIds s.layersRenderers ++
          rendererIds s.layersRenderers := by
  refine ⟨rfl, rfl, ?_⟩
  simp [delete, rendererIds, List.append_assoc]

/-- C7: a single `delete()` call invokes the teardown of every entry
currently in `layersRenderers` exactly once each (the ids logged are
pairwise distinct, none had been logged before, and each count grows by
exactly one), and then destroys the root container exactly once. -/
theorem delete_destroys_each_once (layouts : List (List Layer)) :
    (runRenders layouts).delete.deleteEvents =
        (runRenders layouts).deleteEvents ++
          rendererIds (runRenders layouts).layersRenderers ∧
      (rendererIds (runRenders layouts).layersRenderers).Nodup ∧
      (∀ a ∈ rendererIds (runRenders layouts).layersRenderers,
        a ∉ (runRenders layouts).deleteEvents ∧
          (runRenders layouts).delete.deleteEvents.count a =
            (runRenders layouts).deleteEvents.count a + 1) ∧
      (runRenders layouts).delete.containerDestroyed =
        (runRenders layouts).containerDestroyed + 1 := by
  have hs := WF_runRenders layouts
  refine ⟨rfl, hs.idsNodup, ?_, rfl⟩
  intro a ha
  refine ⟨hs.liveNotDeleted a ha, ?_⟩
  show ((runRenders layouts).deleteEvents ++
    rendererIds (runRenders layouts).layersRenderers).count a = _
  rw [List.count_append]
  congr 1
  exact List.count_eq_one_of_mem hs.idsNodup ha

theorem delete_destroys_each_once_witness :
    (0 : Nat) ∈ rendererIds (runRenders [[⟨"A", 0⟩]]).layersRenderers ∧
      (0 : Nat) ∉ (runRenders [[⟨"A", 0⟩]]).deleteEvents ∧
      (runRenders [[⟨"A", 0⟩]]).delete.deleteEvents.count 0 =
        (runRenders [[⟨"A", 0⟩]]).deleteEvents.count 0 + 1 :=
  ⟨by decide,
    ((delete_destroys_each_once [[⟨"A", 0⟩]]).2.2.1 0 (by decide)).1,
    ((delete_destroys_each_once [[⟨"A", 0⟩]]).2.2.1 0 (by decide)).2⟩

end InstancesRenderer

namespace InstancesRenderer

theorem idsNodup_renderLoop (s : InstancesRenderer) (L : List Layer)
    (i : Nat) (hs : WF s) :
    (rendererIds (s.renderLoop i L).layersRenderers).Nodup := by
  obtain ⟨ns, hids, -, hbound, hpair⟩ := rendererIds_children_renderLoop L s i
  rw [hids, List.nodup_append]
  refine ⟨hs.idsNodup, hpair.imp Nat.ne_of_lt, ?_⟩
  intro a ha hb
  have h1 := hs.idsFresh a ha
  have h2 := (hbound a hb).1
  omega

theorem find?_by_id_of_mem {m : List (String × LayerRenderer)} {k : String}
    {r : LayerRenderer} (hnd : (rendererIds m).Nodup) (hm : (k, r) ∈ m) :
    m.find? (fun p => p.2.id == r.id) = some (k, r) := by
  induction m with
  | nil => cases hm
  | cons p rest ih =>
      have hids : rendererIds (p :: rest) = p.2.id :: rendererIds rest := rfl
      rw [hids] at hnd
      obtain ⟨hnotin, hndrest⟩ := List.nodup_cons.1 hnd
      rcases List.mem_cons.1 hm with he | hm2
      · rw [← he]
        simp [List.find?]
      · have hne : (p.2.id == r.id) = false := by
          have hrid : r.id ∈ rendererIds rest :=
            List.mem_map.2 ⟨(k, r), hm2, rfl⟩
          by_cases hpe : p.2.id = r.id
          · exfalso
            rw [hpe] at hnotin
            exact hnotin hrid
          · simpa using hpe
        simp only [List.find?, hne]
        exact ih hndrest hm2

theorem zOrderOf_of_mem {m : List (String × LayerRenderer)} {k : String}
    {r : LayerRenderer} (hnd : (rendererIds m).Nodup) (hm : (k, r) ∈ m) :
    zOrderOf m r.id = r.zOrder := by
  unfold zOrderOf
  rw [find?_by_id_of_mem hnd hm]

theorem id_ne_of_distinct_keys {m : List (String × LayerRenderer)}
    {k1 k2 : String} {r1 r2 : LayerRenderer}
    (hnd : (rendererIds m).Nodup) (h1 : (k1, r1) ∈ m) (h2 : (k2, r2) ∈ m)
    (hk : k1 ≠ k2) : r1.id ≠ r2.id := by
  intro he
  have hf1 := find?_by_id_of_mem hnd h1
  have hf2 := find?_by_id_of_mem hnd h2
  rw [he] at hf1
  rw [hf1] at hf2
  have hpair := Option.some.inj hf2
  exact hk (congrArg Prod.fst hpair)

theorem indexOf_lt_of_pairwise {R : Nat → Nat → Prop} :
    ∀ {l : List Nat} {a b : Nat}, l.Pairwise R → a ∈ l → b ∈ l → a ≠ b →
      ¬ R b a → List.indexOf a l < List.indexOf b l := by
  intro l
  induction l with
  | nil =>
      intro a b _ ha _ _ _
      cases ha
  | cons c rest ih =>
      intro a b hp ha hb hab hR
      obtain ⟨hc, hrest⟩ := List.pairwise_cons.1 hp
      by_cases hca : c = a
      · have h1 : List.indexOf a (c :: rest) = 0 := by
          rw [hca]
          exact List.indexOf_cons_self a rest
        have hcb : c ≠ b := by
          intro he
          exact hab (hca.symm.trans he)
        have hbmem : b ∈ rest := by
          rcases List.mem_cons.1 hb with he | h
          · exact absurd (he.symm) hcb
          · exact h
        have h2 : List.indexOf b (c :: rest) = (List.indexOf b rest).succ :=
          List.indexOf_cons_ne rest hcb
        rw [h1, h2]
        exact Nat.succ_pos _
      · by_cases hcb : c = b
        · exfalso
          have haRest : a ∈ rest := by
            rcases List.mem_cons.1 ha with he | h
            · exact absurd he.symm hca
            · exact h
          have := hc a haRest
          rw [hcb] at this
          exact hR this
        · have haRest : a ∈ rest := by
            rcases List.mem_cons.1 ha with he | h
            · exact absurd he.symm hca
            · exact h
          have hbRest : b ∈ rest := by
            rcases List.mem_cons.1 hb with he | h
            · exact absurd he.symm hcb
            · exact h
          have hlt := ih hrest haRest hbRest hab hR
          have h1 : List.indexOf a (c :: rest) =
              (List.indexOf a rest).succ := List.indexOf_cons_ne rest hca
          have h2 : List.indexOf b (c :: rest) =
              (List.indexOf b rest).succ := List.indexOf_cons_ne rest hcb
          rw [h1, h2]
          exact Nat.succ_lt_succ hlt

theorem mem_keys_render_iff (s : InstancesRenderer) (L : List Layer)
    (hs : WF s) (hnd : (layerNames L).Nodup) (n : String) :
    n ∈ rendererKeys (s.render L).layersRenderers ↔ n ∈ layerNames L := by
  constructor
  · intro hn
    by_contra hnL
    have hlook := lookupRenderer_render s L hs n
    rw [lookupRenderer_renderLoop_notmem L s 0 n hnL] at hlook
    cases hf : s.lookupRenderer n with
    | none =>
        rw [hf] at hlook
        exact (lookupRenderer_eq_none_iff _ n).1 hlook hn
    | some r =>
        rw [hf] at hlook
        have hw : r.wasUsed = false :=
          hs.flagsFalse (n, r) (lookupRenderer_mem hf)
        have hlook2 : (s.render L).lookupRenderer n =
            if r.wasUsed then some { r with wasUsed := false } else none :=
          hlook
        rw [hw] at hlook2
        simp only [Bool.false_eq_true, if_false] at hlook2
        exact (lookupRenderer_eq_none_iff _ n).1 hlook2 hn
  · intro hnL
    rw [layerNames, List.mem_map] at hnL
    obtain ⟨layer, hlmem, hlname⟩ := hnL
    obtain ⟨j, hj⟩ := List.mem_iff_get.1 hlmem
    obtain ⟨r, hr, hw, -, -, -, -⟩ := renderLoop_lookup_touched L s 0 j hnd
    have hlook2 := lookupRenderer_render s L hs (L.get j).name
    rw [hr] at hlook2
    have hlook3 : (s.render L).lookupRenderer (L.get j).name =
        if r.wasUsed then some { r with wasUsed := false } else none :=
      hlook2
    rw [hw] at hlook3
    simp only [if_true] at hlook3
    rw [← hlname, ← hj]
    by_contra hnot
    have hnone := (lookupRenderer_eq_none_iff (s.render L)
      (L.get j).name).2 hnot
    rw [hnone] at hlook3
    cases hlook3

/-- C1: for every sequence of `render()` calls, after a `render()` whose
layout reports pairwise-distinct layer names, `layersRenderers` holds
exactly one entry keyed by each reported layer name (its key list is a
permutation of the layout's name list) and its size equals
`layout.getLayersCount()`. -/
theorem mapping_matches_layout_after_render (layouts : List (List Layer))
    (L : List Layer) (hnd : (layerNames L).Nodup) :
    (rendererKeys ((runRenders layouts).render L).layersRenderers).Perm
        (layerNames L) ∧
      ((runRenders layouts).render L).layersRenderers.length = L.length := by
  have hs := WF_runRenders layouts
  have hWF2 := WF_render (runRenders layouts) L hs
  have hperm := (List.perm_ext_iff_of_nodup hWF2.keysNodup hnd).2
    (fun n => mem_keys_render_iff (runRenders layouts) L hs hnd n)
  refine ⟨hperm, ?_⟩
  have h1 := hperm.length_eq
  simp only [rendererKeys, layerNames, List.length_map] at h1
  exact h1

theorem mapping_matches_layout_after_render_witness :
    (rendererKeys ((runRenders [[⟨"Background", 0⟩, ⟨"Main", 1⟩]]).render
          [⟨"Main", 2⟩]).layersRenderers).Perm (layerNames [⟨"Main", 2⟩]) ∧
      ((runRenders [[⟨"Background", 0⟩, ⟨"Main", 1⟩]]).render
          [⟨"Main", 2⟩]).layersRenderers.length =
        ([⟨"Main", 2⟩] : List Layer).length :=
  mapping_matches_layout_after_render [[⟨"Background", 0⟩, ⟨"Main", 1⟩]]
    [⟨"Main", 2⟩] (by decide)

end InstancesRenderer

namespace InstancesRenderer

/-- C4: when between two consecutive passes the `Layer` object for some
name is replaced by a different object bearing the same name, the second
pass reuses the existing `LayerRenderer` entry — same renderer identity, no
new renderer constructed for that name, its drawable still in the root
container, its teardown not invoked — and rebinds the entry's `layer`
reference to the new `Layer` object. -/
theorem layer_object_rebinding (layouts : List (List Layer))
    (L1 L2 : List Layer) (layer2 : Layer) (r1 : LayerRenderer)
    (hmem : layer2 ∈ L2) (hnd2 : (layerNames L2).Nodup)
    (_hdiff : layer2 ≠ r1.layer)
    (hr1 : ((runRenders layouts).render L1).lookupRenderer layer2.name =
      some r1) :
    ∃ r2 : LayerRenderer,
      (((runRenders layouts).render L1).render L2).lookupRenderer
          layer2.name = some r2 ∧
        r2.id = r1.id ∧ r2.layer = layer2 ∧
        r2.id ∈ (((runRenders layouts).render L1).render L2).children ∧
        r1.id ∉ (((runRenders layouts).render L1).render
          L2).deleteEvents := by
  have hWF1 : WF ((runRenders layouts).render L1) :=
    WF_render (runRenders layouts) L1 (WF_runRenders layouts)
  have hWF2 : WF (((runRenders layouts).render L1).render L2) :=
    WF_render _ L2 hWF1
  obtain ⟨j, hj⟩ := List.mem_iff_get.1 hmem
  obtain ⟨r, hr, hw, hz, hlay, hid, -⟩ :=
    renderLoop_lookup_touched L2 ((runRenders layouts).render L1) 0 j hnd2
  rw [hj] at hr hlay hid
  have hidr : r.id = r1.id := hid r1 hr1
  have hlook := lookupRenderer_render ((runRenders layouts).render L1) L2
    hWF1 layer2.name
  rw [hr] at hlook
  have hlook2 : (((runRenders layouts).render L1).render L2).lookupRenderer
      layer2.name =
      if r.wasUsed then some { r with wasUsed := false } else none := hlook
  rw [hw] at hlook2
  simp only [if_true] at hlook2
  have hment := lookupRenderer_mem hlook2
  have hidm : ({ r with wasUsed := false } : LayerRenderer).id ∈
      rendererIds (((runRenders layouts).render L1).render
        L2).layersRenderers :=
    List.mem_map.2 ⟨(layer2.name, { r with wasUsed := false }), hment, rfl⟩
  refine ⟨{ r with wasUsed := false }, hlook2, hidr, hlay, ?_, ?_⟩
  · exact hWF2.childrenPerm.mem_iff.2 hidm
  · have hidm2 : r1.id ∈ rendererIds (((runRenders layouts).render
        L1).render L2).layersRenderers := by
      rw [← hidr]
      exact hidm
    exact hWF2.liveNotDeleted r1.id hidm2

theorem layer_object_rebinding_witness :
    ∃ r2 : LayerRenderer,
      (((runRenders ([] : List (List Layer))).render [⟨"A", 0⟩]).render
          [⟨"A", 1⟩]).lookupRenderer (Layer.name ⟨"A", 1⟩) = some r2 ∧
        r2.id = (⟨0, ⟨"A", 0⟩, false, 0⟩ : LayerRenderer).id ∧
        r2.layer = (⟨"A", 1⟩ : Layer) ∧
        r2.id ∈ (((runRenders ([] : List (List Layer))).render
          [⟨"A", 0⟩]).render [⟨"A", 1⟩]).children ∧
        (⟨0, ⟨"A", 0⟩, false, 0⟩ : LayerRenderer).id ∉
          (((runRenders ([] : List (List Layer))).render [⟨"A", 0⟩]).render
            [⟨"A", 1⟩]).deleteEvents :=
  layer_object_rebinding [] [⟨"A", 0⟩] [⟨"A", 1⟩] ⟨"A", 1⟩
    ⟨0, ⟨"A", 0⟩, false, 0⟩
    (by decide) (by decide) (by decide) (by decide)

theorem id_not_reused_foldl_render (Ls : List (List Layer)) :
    ∀ (s : InstancesRenderer) (a : Nat),
      a ∉ rendererIds s.layersRenderers → a < s.nextId →
      a ∉ rendererIds (Ls.foldl render s).layersRenderers ∧
        a < (Ls.foldl render s).nextId := by
  induction Ls with
  | nil =>
      intro s a h1 h2
      exact ⟨h1, h2⟩
  | cons L rest ih =>
      intro s a h1 h2
      simp only [List.foldl_cons]
      apply ih
      · intro hin
        have hids2 : rendererIds (s.render L).layersRenderers =
            rendererIds ((s.renderLoop 0 L).layersRenderers.filter
              (fun p => p.2.wasUsed)) := rendererIds_clean_entries _
        rw [hids2] at hin
        have hin2 : a ∈ rendererIds (s.renderLoop 0 L).layersRenderers :=
          List.Sublist.subset ((List.filter_sublist _).map _) hin
        obtain ⟨ns, hids, -, hbound, -⟩ :=
          rendererIds_children_renderLoop L s 0
        rw [hids] at hin2
        rcases List.mem_append.1 hin2 with h | h
        · exact h1 h
        · have := (hbound a h).1
          omega
      · have hnx : (s.render L).nextId = (s.renderLoop 0 L).nextId := rfl
        rw [hnx]
        exact Nat.lt_of_lt_of_le h2 (nextId_le_renderLoop L s 0)

/-- C3: a layer name present in pass N but absent in pass N+1 has its
renderer's teardown invoked (and logged) during pass N+1, its drawable
removed from the root container and its entry deleted from the mapping;
and after any number of further passes (the old renderer's identity is
never reused), a pass reporting the name again holds a brand-new renderer
with a different identity instead of the old one. -/
theorem removed_layer_garbage_collected (layouts : List (List Layer))
    (L1 L2 : List Layer) (n : String) (r1 : LayerRenderer)
    (h2 : n ∉ layerNames L2)
    (hr1 : ((runRenders layouts).render L1).lookupRenderer n = some r1) :
    r1.id ∈ (((runRenders layouts).render L1).render L2).deleteEvents ∧
      r1.id ∉ ((runRenders layouts).render L1).deleteEvents ∧
      r1.id ∉ (((runRenders layouts).render L1).render L2).children ∧
      (((runRenders layouts).render L1).render L2).lookupRenderer n =
        none ∧
      ∀ (Ls : List (List Layer)) (r3 : LayerRenderer),
        (Ls.foldl render (((runRenders layouts).render L1).render
          L2)).lookupRenderer n = some r3 → r3.id ≠ r1.id := by
  have hWF1 : WF ((runRenders layouts).render L1) :=
    WF_render (runRenders layouts) L1 (WF_runRenders layouts)
  have hWF2 : WF (((runRenders layouts).render L1).render L2) :=
    WF_render _ L2 hWF1
  have hmem1 := lookupRenderer_mem hr1
  have hid1 : r1.id ∈ rendererIds ((runRenders layouts).render
      L1).layersRenderers := List.mem_map.2 ⟨(n, r1), hmem1, rfl⟩
  have hflag1 : r1.wasUsed = false := hWF1.flagsFalse (n, r1) hmem1
  have hlookT : (((runRenders layouts).render L1).renderLoop 0
      L2).lookupRenderer n = some r1 := by
    rw [lookupRenderer_renderLoop_notmem L2 _ 0 n h2]
    exact hr1
  have hmemT := lookupRenderer_mem hlookT
  have hdead : (n, r1) ∈ deadEntries (((runRenders layouts).render
      L1).renderLoop 0 L2).layersRenderers := by
    apply List.mem_filter.2
    refine ⟨hmemT, ?_⟩
    simp [hflag1]
  have hdeadid : r1.id ∈ rendererIds (deadEntries (((runRenders
      layouts).render L1).renderLoop 0 L2).layersRenderers) :=
    List.mem_map.2 ⟨(n, r1), hdead, rfl⟩
  have hidsT : (rendererIds (((runRenders layouts).render L1).renderLoop 0
      L2).layersRenderers).Nodup := idsNodup_renderLoop _ L2 0 hWF1
  have hev2 : (((runRenders layouts).render L1).render L2).deleteEvents =
      ((runRenders layouts).render L1).deleteEvents ++
        rendererIds (deadEntries (((runRenders layouts).render
          L1).renderLoop 0 L2).layersRenderers) := by
    have hbase : (((runRenders layouts).render L1).render
        L2).deleteEvents =
        (((runRenders layouts).render L1).renderLoop 0 L2).deleteEvents ++
          rendererIds (deadEntries (((runRenders layouts).render
            L1).renderLoop 0 L2).layersRenderers) := rfl
    rw [hbase, (renderLoop_events L2 ((runRenders layouts).render L1) 0).1]
  have hnotin2 : r1.id ∉ rendererIds (((runRenders layouts).render
      L1).render L2).layersRenderers := by
    intro hin
    have hids2 : rendererIds (((runRenders layouts).render L1).render
        L2).layersRenderers =
        rendererIds ((((runRenders layouts).render L1).renderLoop 0
          L2).layersRenderers.filter (fun p => p.2.wasUsed)) :=
      rendererIds_clean_entries _
    rw [hids2, ← rendererIds_filter_live _ hidsT] at hin
    exact (of_decide_eq_true (List.mem_filter.1 hin).2) hdeadid
  refine ⟨?_, hWF1.liveNotDeleted r1.id hid1, ?_, ?_, ?_⟩
  · rw [hev2]
    exact List.mem_append.2 (Or.inr hdeadid)
  · intro hch
    exact hnotin2 (hWF2.childrenPerm.mem_iff.1 hch)
  · have hlookup2 := lookupRenderer_render ((runRenders layouts).render
      L1) L2 hWF1 n
    rw [hlookT] at hlookup2
    have hlookup3 : (((runRenders layouts).render L1).render
        L2).lookupRenderer n =
        if r1.wasUsed then some { r1 with wasUsed := false } else none :=
      hlookup2
    rw [hflag1] at hlookup3
    simpa using hlookup3
  · intro Ls r3 hr3 he
    have hlt : r1.id < ((runRenders layouts).render L1).nextId :=
      hWF1.idsFresh r1.id hid1
    have hmono : ((runRenders layouts).render L1).nextId ≤
        (((runRenders layouts).render L1).render L2).nextId := by
      have hnx : (((runRenders layouts).render L1).render L2).nextId =
          (((runRenders layouts).render L1).renderLoop 0 L2).nextId := rfl
      rw [hnx]
      exact nextId_le_renderLoop L2 _ 0
    have hinv := id_not_reused_foldl_render Ls
      (((runRenders layouts).render L1).render L2) r1.id hnotin2 (by omega)
    have hmem3 := lookupRenderer_mem hr3
    have hid3 : r3.id ∈ rendererIds (Ls.foldl render (((runRenders
        layouts).render L1).render L2)).layersRenderers :=
      List.mem_map.2 ⟨(n, r3), hmem3, rfl⟩
    rw [he] at hid3
    exact hinv.1 hid3

theorem removed_layer_garbage_collected_witness :
    (0 : Nat) ∈ (((runRenders ([] : List (List Layer))).render
        [⟨"A", 0⟩]).render [⟨"B", 5⟩]).deleteEvents ∧
      (⟨3, ⟨"A", 1⟩, false, 0⟩ : LayerRenderer).id ≠
        (⟨0, ⟨"A", 0⟩, false, 0⟩ : LayerRenderer).id :=
  ⟨(removed_layer_garbage_collected [] [⟨"A", 0⟩] [⟨"B", 5⟩] "A"
      ⟨0, ⟨"A", 0⟩, false, 0⟩ (by decide) (by decide)).1,
    (removed_layer_garbage_collected [] [⟨"A", 0⟩] [⟨"B", 5⟩] "A"
      ⟨0, ⟨"A", 0⟩, false, 0⟩ (by decide) (by decide)).2.2.2.2
      [[⟨"C", 9⟩], [⟨"A", 1⟩]] ⟨3, ⟨"A", 1⟩, false, 0⟩ (by decide)⟩

end InstancesRenderer

namespace InstancesRenderer

/-- C2: after a `render()` whose layout reports pairwise-distinct layer
names, for any two layout positions i < j the drawable of layer i's
renderer precedes the drawable of layer j's renderer in the root
container's children: the children end up sorted by the z index assigned
during the pass (z index = loop index; the model's merge sort is stable,
matching the stable ES2019 `Array.prototype.sort`). -/
theorem children_follow_layout_order (layouts : List (List Layer))
    (L : List Layer) (hnd : (layerNames L).Nodup) (i j : Fin L.length)
    (hij : (i : Nat) < (j : Nat)) (ri rj : LayerRenderer)
    (hri : ((runRenders layouts).render L).lookupRenderer (L.get i).name =
      some ri)
    (hrj : ((runRenders layouts).render L).lookupRenderer (L.get j).name =
      some rj) :
    List.indexOf ri.id ((runRenders layouts).render L).children <
      List.indexOf rj.id ((runRenders layouts).render L).children := by
  have hWF0 := WF_runRenders layouts
  have hWF2 : WF ((runRenders layouts).render L) :=
    WF_render (runRenders layouts) L hWF0
  obtain ⟨ra, hra, hwa, hza, -, -, -⟩ :=
    renderLoop_lookup_touched L (runRenders layouts) 0 i hnd
  obtain ⟨rb, hrb, hwb, hzb, -, -, -⟩ :=
    renderLoop_lookup_touched L (runRenders layouts) 0 j hnd
  have hlookA := lookupRenderer_render (runRenders layouts) L hWF0
    (L.get i).name
  rw [hra] at hlookA
  have hlookA2 : ((runRenders layouts).render L).lookupRenderer
      (L.get i).name =
      if ra.wasUsed then some { ra with wasUsed := false } else none :=
    hlookA
  rw [hwa] at hlookA2
  simp only [if_true] at hlookA2
  rw [hri] at hlookA2
  have hriA : ri = { ra with wasUsed := false } := Option.some.inj hlookA2
  have hlookB := lookupRenderer_render (runRenders layouts) L hWF0
    (L.get j).name
  rw [hrb] at hlookB
  have hlookB2 : ((runRenders layouts).render L).lookupRenderer
      (L.get j).name =
      if rb.wasUsed then some { rb with wasUsed := false } else none :=
    hlookB
  rw [hwb] at hlookB2
  simp only [if_true] at hlookB2
  rw [hrj] at hlookB2
  have hrjB : rj = { rb with wasUsed := false } := Option.some.inj hlookB2
  have hidsT := idsNodup_renderLoop (runRenders layouts) L 0 hWF0
  have hmemTA := lookupRenderer_mem hra
  have hmemTB := lookupRenderer_mem hrb
  have hzi : zOrderOf ((runRenders layouts).renderLoop 0
      L).layersRenderers ri.id = (i : Nat) := by
    have hid : ri.id = ra.id := by rw [hriA]
    rw [hid, zOrderOf_of_mem hidsT hmemTA, hza]
    exact Nat.zero_add _
  have hzj : zOrderOf ((runRenders layouts).renderLoop 0
      L).layersRenderers rj.id = (j : Nat) := by
    have hid : rj.id = rb.id := by rw [hrjB]
    rw [hid, zOrderOf_of_mem hidsT hmemTB, hzb]
    exact Nat.zero_add _
  have hneid : ri.id ≠ rj.id := by
    intro he
    rw [he, hzj] at hzi
    omega
  have hchA : ri.id ∈ ((runRenders layouts).render L).children := by
    apply hWF2.childrenPerm.mem_iff.2
    exact List.mem_map.2 ⟨((L.get i).name, ri), lookupRenderer_mem hri, rfl⟩
  have hchB : rj.id ∈ ((runRenders layouts).render L).children := by
    apply hWF2.childrenPerm.mem_iff.2
    exact List.mem_map.2 ⟨((L.get j).name, rj), lookupRenderer_mem hrj, rfl⟩
  obtain ⟨ns, hids, hch, -, -⟩ := rendererIds_children_renderLoop L
    (runRenders layouts) 0
  have hchT : ((runRenders layouts).renderLoop 0 L).children.Perm
      (rendererIds ((runRenders layouts).renderLoop 0
        L).layersRenderers) := by
    rw [hids, hch]
    exact hWF0.childrenPerm.append_right ns
  have hchTnodup : ((runRenders layouts).renderLoop 0 L).children.Nodup :=
    hchT.nodup_iff.2 hidsT
  have hch2nodup : (updatePixiObjectsZOrder ((runRenders
      layouts).renderLoop 0 L)).children.Nodup :=
    (children_sort_perm _).nodup_iff.2 hchTnodup
  have hsorted : (updatePixiObjectsZOrder ((runRenders layouts).renderLoop
      0 L)).children.Pairwise (fun a b =>
        (decide (zOrderOf ((runRenders layouts).renderLoop 0
          L).layersRenderers a ≤ zOrderOf ((runRenders layouts).renderLoop
          0 L).layersRenderers b)) = true) := by
    apply List.sorted_mergeSort
    · intro a b c hab hbc
      simp only [decide_eq_true_eq] at hab hbc ⊢
      exact Nat.le_trans hab hbc
    · intro a b
      rcases Nat.le_total (zOrderOf ((runRenders layouts).renderLoop 0
          L).layersRenderers a) (zOrderOf ((runRenders layouts).renderLoop
          0 L).layersRenderers b) with h | h
      · simp [h]
      · simp [h]
  have hchfinal : ((runRenders layouts).render L).children =
      (updatePixiObjectsZOrder ((runRenders layouts).renderLoop 0
        L)).children.filter (fun c => decide (c ∉ rendererIds (deadEntries
          ((runRenders layouts).renderLoop 0 L).layersRenderers))) :=
    children_clean _ hch2nodup
  have hfinal_pairwise : ((runRenders layouts).render L).children.Pairwise
      (fun a b => (decide (zOrderOf ((runRenders layouts).renderLoop 0
        L).layersRenderers a ≤ zOrderOf ((runRenders layouts).renderLoop 0
        L).layersRenderers b)) = true) := by
    rw [hchfinal]
    exact List.Pairwise.sublist (List.filter_sublist _) hsorted
  have hR : ¬ (decide (zOrderOf ((runRenders layouts).renderLoop 0
      L).layersRenderers rj.id ≤ zOrderOf ((runRenders layouts).renderLoop
      0 L).layersRenderers ri.id)) = true := by
    rw [hzi, hzj]
    simp only [decide_eq_true_eq]
    omega
  exact indexOf_lt_of_pairwise hfinal_pairwise hchA hchB hneid hR

theorem children_follow_layout_order_witness :
    List.indexOf (⟨0, ⟨"A", 0⟩, false, 0⟩ : LayerRenderer).id
        ((runRenders ([] : List (List Layer))).render
          [⟨"A", 0⟩, ⟨"B", 1⟩]).children <
      List.indexOf (⟨1, ⟨"B", 1⟩, false, 1⟩ : LayerRenderer).id
        ((runRenders ([] : List (List Layer))).render
          [⟨"A", 0⟩, ⟨"B", 1⟩]).children :=
  children_follow_layout_order [] [⟨"A", 0⟩, ⟨"B", 1⟩] (by decide)
    ⟨0, by decide⟩ ⟨1, by decide⟩ (by decide)
    ⟨0, ⟨"A", 0⟩, false, 0⟩ ⟨1, ⟨"B", 1⟩, false, 1⟩
    (by decide) (by decide)

end InstancesRenderer
